import Mathlib

/-!
The zapglog `log` package: verbosity control, facade dispatch and the logr adapter.

A shallow embedding of `src/log/global_logger.go` and `src/log/logr.go`.

* The package-level variable `g` becomes the record `G`, threaded explicitly.
* `Level` is Go `int32`; conversions to it are written `toInt32`.  Go `int` is
  taken at 64 bits (`toInt`).
* The backend (`*zap.Logger`, `*zap.SugaredLogger`) is an external dependency.
  It is modelled at its interface: a logger value records how it was derived
  (caller skip, name segments, attached context) and every logging call made
  on it is appended to the ghost trace `G.out`.
* A nil-pointer dereference and `os.Exit` end the process; this is recorded in
  `G.halted`.
* `strconv.ParseInt` (Go standard library) is transcribed for base 10, the only
  base the package uses.
-/

namespace Zapglog

/-! ## Machine integers -/

/-- Conversion to Go `int32` (two's complement truncation). -/
def toInt32 (x : Int) : Int := (x + 2 ^ 31) % 2 ^ 32 - 2 ^ 31

/-- Conversion to Go `int64`. -/
def toInt64 (x : Int) : Int := (x + 2 ^ 63) % 2 ^ 64 - 2 ^ 63

/-- Conversion to Go `int` (64-bit platforms). -/
def toInt (x : Int) : Int := toInt64 x

/-- Conversion to Go `uint64`. -/
def toUint64 (x : Nat) : Nat := x % 2 ^ 64

/-- The value lies in the range of Go `int32`. -/
def InInt32 (x : Int) : Prop := -2 ^ 31 ≤ x ∧ x < 2 ^ 31

instance (x : Int) : Decidable (InInt32 x) := by
  unfold InInt32; exact inferInstance

/-! ## Go strings and `strconv.ParseInt` -/

/-- A Go string: a sequence of bytes. -/
abbrev GoString := List Nat

namespace strconv

/-- The `Err` field of a `*strconv.NumError`. -/
inductive NumError where
  | ErrSyntax
  | ErrRange
  | ErrBitSize
  deriving DecidableEq, Repr

/-- The constant `maxUint64`. -/
def maxUint64 : Nat := 2 ^ 64 - 1

/-- Helper `lower(c)`: `c | ('x' - 'X')`. -/
def lower (c : Nat) : Nat := c ||| 32

/-- The digit loop of `ParseUint` for `base = 10`, with accumulator `n`.
Byte `c` is a digit `'0'..'9'`, or a letter (digit value at least 10, rejected
against the base), or anything else (syntax error).  `cutoff` is
`maxUint64/10 + 1`.  The underscore case of the loop applies to base 0 only. -/
def ParseUint.loop (maxVal : Nat) : List Nat → Nat → Nat × Option NumError
  | [], n => (n, none)
  | c :: cs, n =>
    let d : Option Nat :=
      if 48 ≤ c ∧ c ≤ 57 then some (c - 48)
      else if 97 ≤ lower c ∧ lower c ≤ 122 then some (lower c - 97 + 10)
      else none
    match d with
    | none => (0, some .ErrSyntax)
    | some d =>
      if d ≥ 10 then (0, some .ErrSyntax)
      else if n ≥ maxUint64 / 10 + 1 then (maxVal, some .ErrRange)
      else
        let n10 := toUint64 (n * 10)
        let n1 := toUint64 (n10 + d)
        if n1 < n10 ∨ n1 > maxVal then (maxVal, some .ErrRange)
        else ParseUint.loop maxVal cs n1

/-- The function `strconv.ParseUint(s, 10, bitSize)`; `maxVal` is
`uint64(1)<<uint(bitSize) - 1` in `uint64` arithmetic. -/
def ParseUint (s : GoString) (bitSize : Nat) : Nat × Option NumError :=
  if s = [] then (0, some .ErrSyntax)
  else
    let bitSize := if bitSize = 0 then 64 else bitSize
    if bitSize > 64 then (0, some .ErrBitSize)
    else
      let maxVal := toUint64 (toUint64 (2 ^ bitSize) + maxUint64)
      ParseUint.loop maxVal s 0

/-- The function `strconv.ParseInt(s, 10, bitSize)`: picks off a leading sign,
parses the rest unsigned and checks the signed range. -/
def ParseInt (s : GoString) (bitSize : Nat) : Int × Option NumError :=
  match s with
  | [] => (0, some .ErrSyntax)
  | c :: rest =>
    let neg : Bool := decide (c = 45)
    let s1 := if c = 43 then rest else if c = 45 then rest else s
    match ParseUint s1 bitSize with
    | (un, err) =>
      if err ≠ none ∧ err ≠ some .ErrRange then (0, err)
      else
        let bitSize := if bitSize = 0 then 64 else bitSize
        let cutoff : Nat := toUint64 (2 ^ (bitSize - 1))
        if neg = false ∧ un ≥ cutoff then (((cutoff : Int) - 1), some .ErrRange)
        else if neg = true ∧ un > cutoff then (-(cutoff : Int), some .ErrRange)
        else
          let n := toInt64 un
          (if neg then toInt64 (-n) else n, none)

end strconv

/-! ## Decimal numerals, as the specification describes them -/

/-- ASCII decimal digit. -/
def isDigit (c : Nat) : Bool := decide (48 ≤ c) && decide (c ≤ 57)

/-- Value of a digit string, most significant digit first. -/
def digitsValue (ds : List Nat) : Nat := ds.foldl (fun acc c => 10 * acc + (c - 48)) 0

/-- The integer denoted by a base-10 numeral: an optional sign `+` or `-`
followed by one or more decimal digits.  `none` when `s` is not such a
numeral. -/
def decimalValue (s : GoString) : Option Int :=
  match s with
  | [] => none
  | c :: rest =>
    let ds := if c = 43 ∨ c = 45 then rest else s
    if ds ≠ [] ∧ ds.all isDigit = true then
      some (if c = 45 then -(digitsValue ds : Int) else (digitsValue ds : Int))
    else none

/-! ## The backend dependency (zap), at its interface -/

/-- A non-nil Go `error` value. The nil error is `none : Option GoError`. -/
structure GoError where
  text : String
  deriving DecidableEq, Repr

/-- A `zap.Field`, as built by the constructors this package calls or as
passed through from a caller. -/
inductive Field where
  | Error (err : Option GoError)
  | Int32 (key : String) (val : Int)
  | Other (key : String) (val : String)
  deriving DecidableEq, Repr

/-- The constructor `zap.Error(err)`. -/
def zap.Error (err : Option GoError) : Field := Field.Error err

/-- The constructor `zap.Int32(key, val)`. -/
def zap.Int32 (key : String) (val : Int) : Field := Field.Int32 key val

/-- A loosely typed Go argument (`interface{}`). -/
inductive Value where
  | nil
  | str (s : String)
  | int (n : Int)
  | field (f : Field)
  deriving DecidableEq, Repr

/-- A non-nil `*zap.Logger`: the sink it writes to (`core`), the number of
caller frames it skips when reporting the call site, its name and the context
attached to it. -/
structure Logger where
  core : Nat
  callerSkip : Int
  name : String
  context : List Value
  deriving DecidableEq, Repr

/-- A non-nil `*zap.SugaredLogger`, obtained from a logger by `Sugar()`. -/
structure SugaredLogger where
  base : Logger
  deriving DecidableEq, Repr

/-- Severity of a record handed to the backend. -/
inductive Severity where
  | Debug
  | Info
  | Warn
  | Error
  | Fatal
  deriving DecidableEq, Repr

/-- What a logging call passes to the backend, by call style. -/
inductive Payload where
  | plain (args : List Value)
  | formatted (format : String) (args : List Value)
  | keyed (msg : String) (keysAndValues : List Value)
  | structured (msg : String) (fields : List Field)
  deriving DecidableEq, Repr

/-- One logging call received by the backend: the logger view it was made on,
its severity and its payload. -/
structure Emission where
  via : Logger
  level : Severity
  payload : Payload
  deriving DecidableEq, Repr

/-- Method `(*zap.Logger).WithOptions(zap.AddCallerSkip(skip))`. -/
def Logger.WithOptions_AddCallerSkip (log : Logger) (skip : Int) : Logger :=
  { log with callerSkip := toInt (log.callerSkip + skip) }

/-- Method `(*zap.Logger).Named(s)`: name segments are joined by a period, the
empty segment is ignored. -/
def Logger.Named (log : Logger) (s : String) : Logger :=
  if s = "" then log
  else if log.name = "" then { log with name := s }
  else { log with name := log.name ++ "." ++ s }

/-- Method `(*zap.Logger).Sugar()`. -/
def Logger.Sugar (log : Logger) : SugaredLogger := ⟨log⟩

/-- Method `(*zap.SugaredLogger).Named(name)`. -/
def SugaredLogger.Named (s : SugaredLogger) (name : String) : SugaredLogger :=
  ⟨s.base.Named name⟩

/-- Method `(*zap.SugaredLogger).With(args...)`. -/
def SugaredLogger.With (s : SugaredLogger) (args : List Value) : SugaredLogger :=
  ⟨{ s.base with context := s.base.context ++ args }⟩

/-! ## Package state -/

/-- Go type `Level` (`int32`). -/
abbrev Level := Int

/-- An `os.Signal` interface value: nil, or a `syscall.Signal` number. -/
abbrev Signal := Option Int

/-- How the process ended. -/
inductive Halt where
  | nilDeref
  | exit (code : Int)
  deriving DecidableEq, Repr

/-- The package-level variable `g`, together with the signal routing kept by
`os/signal` for `g.sigch` (`routed`), the trace of calls received by the
backend (`out`) and the termination status of the process (`halted`). -/
structure G where
  verbosity : Level
  logger : Option Logger
  sigch : List Signal
  sigs : Signal × Signal
  routed : List Signal
  out : List Emission
  halted : Option Halt
  deriving DecidableEq, Repr

/-- The state before `init` runs: every field holds its zero value. -/
def G.zero : G :=
  { verbosity := 0, logger := none, sigch := [], sigs := (none, none),
    routed := [], out := [], halted := none }

/-- The backend receives a logging call. -/
def G.emit (g : G) (e : Emission) : G := { g with out := g.out ++ [e] }

/-- A nil pointer is dereferenced: the goroutine panics. -/
def G.nilPanic (g : G) : G := { g with halted := some .nilDeref }

/-- Call of `os.Exit(code)`. -/
def G.exit (g : G) (code : Int) : G := { g with halted := some (.exit code) }

/-! ### Logging methods of the backend, acting on the trace -/

/-- Method `(*zap.Logger).Debug(msg, fields...)`. -/
def Logger.Debug (log : Logger) (msg : String) (fields : List Field) (g : G) : G :=
  g.emit ⟨log, .Debug, .structured msg fields⟩

/-- Method `(*zap.Logger).Info(msg, fields...)`. -/
def Logger.Info (log : Logger) (msg : String) (fields : List Field) (g : G) : G :=
  g.emit ⟨log, .Info, .structured msg fields⟩

/-- Method `(*zap.SugaredLogger).Info(args...)`. -/
def SugaredLogger.Info (s : SugaredLogger) (args : List Value) (g : G) : G :=
  g.emit ⟨s.base, .Info, .plain args⟩

/-- Method `(*zap.SugaredLogger).Infof(format, args...)`. -/
def SugaredLogger.Infof (s : SugaredLogger) (format : String) (args : List Value) (g : G) : G :=
  g.emit ⟨s.base, .Info, .formatted format args⟩

/-- Method `(*zap.SugaredLogger).Infow(msg, keysAndValues...)`. -/
def SugaredLogger.Infow (s : SugaredLogger) (msg : String) (kvs : List Value) (g : G) : G :=
  g.emit ⟨s.base, .Info, .keyed msg kvs⟩

/-- Method `(*zap.SugaredLogger).Warn(args...)`. -/
def SugaredLogger.Warn (s : SugaredLogger) (args : List Value) (g : G) : G :=
  g.emit ⟨s.base, .Warn, .plain args⟩

/-- Method `(*zap.SugaredLogger).Warnf(format, args...)`. -/
def SugaredLogger.Warnf (s : SugaredLogger) (format : String) (args : List Value) (g : G) : G :=
  g.emit ⟨s.base, .Warn, .formatted format args⟩

/-- Method `(*zap.SugaredLogger).Error(args...)`. -/
def SugaredLogger.Error (s : SugaredLogger) (args : List Value) (g : G) : G :=
  g.emit ⟨s.base, .Error, .plain args⟩

/-- Method `(*zap.SugaredLogger).Errorf(format, args...)`. -/
def SugaredLogger.Errorf (s : SugaredLogger) (format : String) (args : List Value) (g : G) : G :=
  g.emit ⟨s.base, .Error, .formatted format args⟩

/-- Method `(*zap.SugaredLogger).Errorw(msg, keysAndValues...)`. -/
def SugaredLogger.Errorw (s : SugaredLogger) (msg : String) (kvs : List Value) (g : G) : G :=
  g.emit ⟨s.base, .Error, .keyed msg kvs⟩

/-- Method `(*zap.SugaredLogger).Fatal(args...)`: logs, then calls `os.Exit(1)`
(the default fatal hook). -/
def SugaredLogger.Fatal (s : SugaredLogger) (args : List Value) (g : G) : G :=
  (g.emit ⟨s.base, .Fatal, .plain args⟩).exit 1

/-- Method `(*zap.SugaredLogger).Fatalf(format, args...)`: logs, then calls
`os.Exit(1)`. -/
def SugaredLogger.Fatalf (s : SugaredLogger) (format : String) (args : List Value) (g : G) : G :=
  (g.emit ⟨s.base, .Fatal, .formatted format args⟩).exit 1

/-! ## `global_logger.go` -/

/-- Method `(*Level).get`: atomic load of the cell. -/
def Level.get (l : Level) : Level := l

/-- Method `(*Level).set`: atomic store of `int32(val)`; the result is the new
content of the cell. -/
def Level.set (_l : Level) (val : Level) : Level := toInt32 val

/-- Function `signal.Stop(g.sigch)`: no signal is routed to the channel any more. -/
def signal.Stop (g : G) : G := { g with routed := [] }

/-- Function `signal.Notify(g.sigch, sigs...)`: routes the given signals to the
channel as well; a nil signal is ignored. -/
def signal.Notify (sigs : List Signal) (g : G) : G :=
  { g with routed := g.routed ++ sigs.filter (fun sg => sg.isSome) }

/-- Function `EnableVerbosityHook`. -/
def EnableVerbosityHook (inc dec : Signal) (g : G) : G :=
  let g := signal.Stop g
  let g := { g with sigs := (inc, dec) }
  signal.Notify [inc, dec] g

/-- Function `DisableVerbosityHook`. -/
def DisableVerbosityHook (g : G) : G := signal.Stop g

/-- Function `SetVerbosity`. -/
def SetVerbosity (level : Level) (g : G) : G :=
  { g with verbosity := g.verbosity.set level }

/-- Function `SetLogger`; the argument is a pointer and may be nil. -/
def SetLogger (logger : Option Logger) (g : G) : G := { g with logger := logger }

/-- Function `L`. -/
def L (g : G) : Option Logger := g.logger

/-- Function `LDepth`; `none` stands for the panic of calling `WithOptions` on a
nil logger. -/
def LDepth (depth : Int) (g : G) : Option Logger :=
  g.logger.map (fun log => log.WithOptions_AddCallerSkip depth)

/-- Function `S`; `none` stands for the panic of calling `Sugar` on a nil logger. -/
def S (g : G) : Option SugaredLogger := (L g).map Logger.Sugar

/-- Function `SDepth`; `none` stands for the panic inside `LDepth`. -/
def SDepth (depth : Int) (g : G) : Option SugaredLogger := (LDepth depth g).map Logger.Sugar

/-- Runs a call on the logger view `view`, or panics when obtaining the view
panicked. -/
def G.via {α : Type} (g : G) (view : Option α) (call : α → G → G) : G :=
  match view with
  | none => g.nilPanic
  | some s => call s g

/-- Function `Info`. -/
def Info (args : List Value) (g : G) : G :=
  g.via (SDepth 1 g) (fun s => s.Info args)

/-- Function `InfoDepth`. -/
def InfoDepth (depth : Int) (args : List Value) (g : G) : G :=
  g.via (SDepth (toInt (1 + depth)) g) (fun s => s.Info args)

/-- Function `Infoln`. -/
def Infoln (args : List Value) (g : G) : G :=
  g.via (SDepth 1 g) (fun s => s.Info args)

/-- Function `Infof`. -/
def Infof (format : String) (args : List Value) (g : G) : G :=
  g.via (SDepth 1 g) (fun s => s.Infof format args)

/-- Function `Warning`. -/
def Warning (args : List Value) (g : G) : G :=
  g.via (SDepth 1 g) (fun s => s.Warn args)

/-- Function `WarningDepth`. -/
def WarningDepth (depth : Int) (args : List Value) (g : G) : G :=
  g.via (SDepth (toInt (1 + depth)) g) (fun s => s.Warn args)

/-- Function `Warningln`. -/
def Warningln (args : List Value) (g : G) : G :=
  g.via (SDepth 1 g) (fun s => s.Warn args)

/-- Function `Warningf`. -/
def Warningf (format : String) (args : List Value) (g : G) : G :=
  g.via (SDepth 1 g) (fun s => s.Warnf format args)

/-- Function `Error`. -/
def Error (args : List Value) (g : G) : G :=
  g.via (SDepth 1 g) (fun s => s.Error args)

/-- Function `ErrorDepth`. -/
def ErrorDepth (depth : Int) (args : List Value) (g : G) : G :=
  g.via (SDepth (toInt (1 + depth)) g) (fun s => s.Error args)

/-- Function `Errorln`. -/
def Errorln (args : List Value) (g : G) : G :=
  g.via (SDepth 1 g) (fun s => s.Error args)

/-- Function `Errorf`. -/
def Errorf (format : String) (args : List Value) (g : G) : G :=
  g.via (SDepth 1 g) (fun s => s.Errorf format args)

/-- Function `Fatal`. -/
def Fatal (args : List Value) (g : G) : G :=
  g.via (SDepth 1 g) (fun s => s.Fatal args)

/-- Function `FatalDepth`. -/
def FatalDepth (depth : Int) (args : List Value) (g : G) : G :=
  g.via (SDepth (toInt (1 + depth)) g) (fun s => s.Fatal args)

/-- Function `Fatalln`. -/
def Fatalln (args : List Value) (g : G) : G :=
  g.via (SDepth 1 g) (fun s => s.Fatal args)

/-- Function `Fatalf`. -/
def Fatalf (format : String) (args : List Value) (g : G) : G :=
  g.via (SDepth 1 g) (fun s => s.Fatalf format args)

/-- Function `Exit`. -/
def Exit (args : List Value) (g : G) : G :=
  g.via (SDepth 1 g) (fun s => s.Fatal args)

/-- Function `ExitDepth`. -/
def ExitDepth (depth : Int) (args : List Value) (g : G) : G :=
  g.via (SDepth (toInt (1 + depth)) g) (fun s => s.Fatal args)

/-- Function `Exitln`. -/
def Exitln (args : List Value) (g : G) : G :=
  g.via (SDepth 1 g) (fun s => s.Fatal args)

/-- Function `Exitf`. -/
def Exitf (format : String) (args : List Value) (g : G) : G :=
  g.via (SDepth 1 g) (fun s => s.Fatalf format args)

/-- Go type `Verbose`. -/
structure Verbose where
  enabled : Bool
  deriving DecidableEq, Repr

/-- Function `V`. -/
def V (lv : Level) (g : G) : Verbose := { enabled := decide (g.verbosity.get ≥ lv) }

/-- Method `Verbose.Info`. -/
def Verbose.Info (v : Verbose) (args : List Value) (g : G) : G :=
  if v.enabled then g.via (SDepth 1 g) (fun s => s.Info args) else g

/-- Method `Verbose.Infoln`. -/
def Verbose.Infoln (v : Verbose) (args : List Value) (g : G) : G :=
  if v.enabled then g.via (SDepth 1 g) (fun s => s.Info args) else g

/-- Method `Verbose.Infof`. -/
def Verbose.Infof (v : Verbose) (format : String) (args : List Value) (g : G) : G :=
  if v.enabled then g.via (SDepth 1 g) (fun s => s.Infof format args) else g

/-- Method `Verbose.Infoz`. -/
def Verbose.Infoz (v : Verbose) (message : String) (fields : List Field) (g : G) : G :=
  if v.enabled then g.via (LDepth 1 g) (fun log => log.Info message fields) else g

/-- Method `(*Level).Set` of the `flag.Value` interface.  The receiver is not
used: the parsed value is stored in `g.verbosity`.  Returns the new state and
the error (`none` is the nil error). -/
def Level.Set (_l : Level) (value : GoString) (g : G) : G × Option strconv.NumError :=
  match strconv.ParseInt value 32 with
  | (v, err) =>
    if err ≠ none then (g, err)
    else ({ g with verbosity := g.verbosity.set (toInt32 v) }, none)

/-- The body of the listener goroutine's loop, for one signal `sig` received
from `g.sigch`. -/
def listener.step (sig : Signal) (g : G) : G :=
  if sig = g.sigs.1 then
    let g := { g with verbosity := g.verbosity.set (toInt32 (g.verbosity.get + 1)) }
    g.via (L g) (fun log => log.Debug "increase verbosity" [zap.Int32 "v" (toInt32 g.verbosity.get)])
  else if sig = g.sigs.2 then
    let g := { g with verbosity := g.verbosity.set (toInt32 (g.verbosity.get - 1)) }
    g.via (L g) (fun log => log.Debug "decrease verbosity" [zap.Int32 "v" (toInt32 g.verbosity.get)])
  else g

/-- The listener goroutine processing, in order, the signals it receives from
the channel; it stops when the process has ended. -/
def listener : List Signal → G → G
  | [], g => g
  | sig :: rest, g =>
    if g.halted.isSome then g else listener rest (listener.step sig g)

/-- The runtime delivers signal `sig` to the process: when it is routed to
`g.sigch` it is sent without blocking, so it is dropped when the channel
(capacity 1) is full. -/
def osDeliver (sig : Signal) (g : G) : G :=
  if sig ∈ g.routed ∧ g.sigch.length < 1 then { g with sigch := g.sigch ++ [sig] } else g

/-- The listener goroutine receives the next signal from the channel, if any,
and runs the loop body on it. -/
def listener.recv (g : G) : G :=
  match g.sigch with
  | [] => g
  | sig :: rest => listener.step sig { g with sigch := rest }

/-- Constant `syscall.SIGUSR1` (linux). -/
def SIGUSR1 : Signal := some 10

/-- Constant `syscall.SIGUSR2` (linux). -/
def SIGUSR2 : Signal := some 12

/-- Function `init`.  `built` is the outcome of `cfg.Build()` (a logger, or an
error) and `zapL` the logger returned by `zap.L()`; both come from the zap
library, which hands out non-nil loggers.  The channel is created empty and the
listener goroutine started (its steps are `listener.recv`). -/
def init (built : Except GoError Logger) (zapL : Logger) (g : G) : G :=
  let logger : Logger :=
    match built with
    | .ok logger => logger
    | .error _ => zapL
  let g := SetLogger (some logger) g
  let g := { g with sigch := [] }
  EnableVerbosityHook SIGUSR1 SIGUSR2 g

/-! ## `logr.go` -/

/-- Go type `logrLogger`.  The type is unexported and every value of it is
built by `NewLogrLogger`, `V`, `WithName` or `WithValues`, each of which
stores a non-nil sugared logger. -/
structure logrLogger where
  enabled : Bool
  s : SugaredLogger
  deriving DecidableEq, Repr

/-- Method `(*logrLogger).Error`. -/
def logrLogger.Error (l : logrLogger) (err : Option GoError) (msg : String)
    (keysAndValues : List Value) (g : G) : G :=
  (l.s.With [Value.field (zap.Error err)]).Errorw msg keysAndValues g

/-- Method `(*logrLogger).Info`. -/
def logrLogger.Info (l : logrLogger) (msg : String) (keysAndValues : List Value) (g : G) : G :=
  if l.enabled then l.s.Infow msg keysAndValues g else g

/-- Method `(*logrLogger).Enabled`. -/
def logrLogger.Enabled (l : logrLogger) : Bool := l.enabled

/-- Method `(*logrLogger).V`; `level` is a Go `int`, and the conversion
`int(...)` of the `int32` verbosity widens it without changing its value. -/
def logrLogger.V (l : logrLogger) (level : Int) (g : G) : logrLogger :=
  { enabled := decide (g.verbosity.get ≥ level), s := l.s }

/-- Method `(*logrLogger).WithName`. -/
def logrLogger.WithName (l : logrLogger) (name : String) : logrLogger :=
  { enabled := true, s := l.s.Named name }

/-- Method `(*logrLogger).WithValues`. -/
def logrLogger.WithValues (l : logrLogger) (keysAndValues : List Value) : logrLogger :=
  { enabled := true, s := l.s.With keysAndValues }

/-- Function `NewLogrLogger`; `none` stands for the panic inside `SDepth`. -/
def NewLogrLogger (ns : List String) (g : G) : Option logrLogger :=
  (SDepth 1 g).map (fun s => { enabled := true, s := ns.foldl (fun s n => s.Named n) s })

/-! ## Sequences of operations on the package -/

/-- One step of a client of the package, of the runtime or of the listener
goroutine. -/
inductive Op where
  | SetLogger (logger : Option Logger)
  | SetVerbosity (level : Level)
  | EnableVerbosityHook (inc dec : Signal)
  | DisableVerbosityHook
  | LevelSet (value : GoString)
  | Info (args : List Value)
  | InfoDepth (depth : Int) (args : List Value)
  | Infoln (args : List Value)
  | Infof (format : String) (args : List Value)
  | Warning (args : List Value)
  | WarningDepth (depth : Int) (args : List Value)
  | Warningln (args : List Value)
  | Warningf (format : String) (args : List Value)
  | Error (args : List Value)
  | ErrorDepth (depth : Int) (args : List Value)
  | Errorln (args : List Value)
  | Errorf (format : String) (args : List Value)
  | Fatal (args : List Value)
  | FatalDepth (depth : Int) (args : List Value)
  | Fatalln (args : List Value)
  | Fatalf (format : String) (args : List Value)
  | Exit (args : List Value)
  | ExitDepth (depth : Int) (args : List Value)
  | Exitln (args : List Value)
  | Exitf (format : String) (args : List Value)
  | VInfo (lv : Level) (args : List Value)
  | VInfoln (lv : Level) (args : List Value)
  | VInfof (lv : Level) (format : String) (args : List Value)
  | VInfoz (lv : Level) (message : String) (fields : List Field)
  | logrInfo (l : logrLogger) (msg : String) (keysAndValues : List Value)
  | logrError (l : logrLogger) (err : Option GoError) (msg : String) (keysAndValues : List Value)
  | osDeliver (sig : Signal)
  | listenerRecv
  deriving DecidableEq, Repr

/-- The effect of one step on the package state. -/
def Op.apply : Op → G → G
  | .SetLogger logger, g => Zapglog.SetLogger logger g
  | .SetVerbosity level, g => Zapglog.SetVerbosity level g
  | .EnableVerbosityHook inc dec, g => Zapglog.EnableVerbosityHook inc dec g
  | .DisableVerbosityHook, g => Zapglog.DisableVerbosityHook g
  | .LevelSet value, g => (Level.Set 0 value g).1
  | .Info args, g => Zapglog.Info args g
  | .InfoDepth depth args, g => Zapglog.InfoDepth depth args g
  | .Infoln args, g => Zapglog.Infoln args g
  | .Infof format args, g => Zapglog.Infof format args g
  | .Warning args, g => Zapglog.Warning args g
  | .WarningDepth depth args, g => Zapglog.WarningDepth depth args g
  | .Warningln args, g => Zapglog.Warningln args g
  | .Warningf format args, g => Zapglog.Warningf format args g
  | .Error args, g => Zapglog.Error args g
  | .ErrorDepth depth args, g => Zapglog.ErrorDepth depth args g
  | .Errorln args, g => Zapglog.Errorln args g
  | .Errorf format args, g => Zapglog.Errorf format args g
  | .Fatal args, g => Zapglog.Fatal args g
  | .FatalDepth depth args, g => Zapglog.FatalDepth depth args g
  | .Fatalln args, g => Zapglog.Fatalln args g
  | .Fatalf format args, g => Zapglog.Fatalf format args g
  | .Exit args, g => Zapglog.Exit args g
  | .ExitDepth depth args, g => Zapglog.ExitDepth depth args g
  | .Exitln args, g => Zapglog.Exitln args g
  | .Exitf format args, g => Zapglog.Exitf format args g
  | .VInfo lv args, g => (V lv g).Info args g
  | .VInfoln lv args, g => (V lv g).Infoln args g
  | .VInfof lv format args, g => (V lv g).Infof format args g
  | .VInfoz lv message fields, g => (V lv g).Infoz message fields g
  | .logrInfo l msg kvs, g => l.Info msg kvs g
  | .logrError l err msg kvs, g => l.Error err msg kvs g
  | .osDeliver sig, g => Zapglog.osDeliver sig g
  | .listenerRecv, g => listener.recv g

/-- Runs a sequence of steps; nothing runs once the process has ended. -/
def run : List Op → G → G
  | [], g => g
  | op :: ops, g => if g.halted.isSome then g else run ops (op.apply g)

/-! ## Concrete values used in the examples -/

/-- A backend logger. -/
def exLogger : Logger := { core := 0, callerSkip := 0, name := "", context := [] }

/-- Signal `A` of the scenario. -/
def sigA : Signal := some 10

/-- Signal `B` of the scenario. -/
def sigB : Signal := some 12

/-- Signal `C` of the scenario. -/
def sigC : Signal := some 1

/-- Signal `D` of the scenario. -/
def sigD : Signal := some 2

/-- The state right after `init` succeeded in building `exLogger`. -/
def exStart : G := init (.ok exLogger) exLogger G.zero

/-- The state after `init` and `SetVerbosity(math.MaxInt32)`. -/
def exMax : G := SetVerbosity 2147483647 exStart

/-- The largest Go `int`. -/
def maxInt : Int := 9223372036854775807

/-- The state after `init` and `SetLogger(nil)`. -/
def exNoLogger : G := SetLogger none exStart

/-- The state after `init` and `SetLogger` of a logger that already skips the
largest number of caller frames. -/
def exSkipMax : G := SetLogger (some { exLogger with callerSkip := maxInt }) exStart

/-! ## `strconv.ParseInt` accepts exactly the 32-bit decimal numerals -/

open strconv

theorem foldl_digits_ge (ds : List Nat) (n : Nat) :
    n ≤ ds.foldl (fun acc c => 10 * acc + (c - 48)) n := by
  induction ds generalizing n with
  | nil => simp
  | cons c cs ih =>
    simp only [List.foldl_cons]
    exact le_trans (by omega) (ih _)

theorem maxVal32 : toUint64 (toUint64 (2 ^ 32) + maxUint64) = 4294967295 := by
  decide

theorem loop_digits (ds : List Nat) (n : Nat)
    (hd : ∀ c ∈ ds, isDigit c = true) (hn : n ≤ 4294967295) :
    ParseUint.loop 4294967295 ds n =
      if ds.foldl (fun acc c => 10 * acc + (c - 48)) n ≤ 4294967295
      then (ds.foldl (fun acc c => 10 * acc + (c - 48)) n, none)
      else (4294967295, some .ErrRange) := by
  induction ds generalizing n with
  | nil => simp [ParseUint.loop, hn]
  | cons c cs ih =>
    have hc : isDigit c = true := hd c (List.mem_cons_self _ _)
    have hcs : ∀ x ∈ cs, isDigit x = true := fun x hx => hd x (List.mem_cons_of_mem _ hx)
    simp only [isDigit, Bool.and_eq_true, decide_eq_true_eq] at hc
    have hge := foldl_digits_ge cs (10 * n + (c - 48))
    simp only [ParseUint.loop, List.foldl_cons, hc, and_self, if_true, maxUint64, toUint64]
    have h1 : ¬ (c - 48 ≥ 10) := by omega
    have h2 : ¬ (n ≥ (2 ^ 64 - 1) / 10 + 1) := by norm_num; omega
    have h3 : (n * 10) % 2 ^ 64 = n * 10 := Nat.mod_eq_of_lt (by norm_num; omega)
    have h4 : (n * 10 + (c - 48)) % 2 ^ 64 = n * 10 + (c - 48) :=
      Nat.mod_eq_of_lt (by norm_num; omega)
    simp only [h1, h2, if_false, h3, h4]
    by_cases h5 : n * 10 + (c - 48) > 4294967295
    · have h6 : ¬ (List.foldl (fun acc c => 10 * acc + (c - 48)) (10 * n + (c - 48)) cs ≤ 4294967295) := by
        omega
      simp [h5, h6]
    · have h7 : ¬ (n * 10 + (c - 48) < n * 10 ∨ n * 10 + (c - 48) > 4294967295) := by omega
      rw [if_neg h7, ih _ hcs (by omega)]
      have : n * 10 + (c - 48) = 10 * n + (c - 48) := by omega
      rw [this]

theorem loop_error_shape (M : Nat) (ds : List Nat) (n : Nat) :
    (ParseUint.loop M ds n).2 = none ∨
    ParseUint.loop M ds n = (0, some .ErrSyntax) ∨
    ParseUint.loop M ds n = (M, some .ErrRange) := by
  induction ds generalizing n with
  | nil => simp [ParseUint.loop]
  | cons c cs ih =>
    simp only [ParseUint.loop]
    split
    · simp
    · split
      · simp
      · split
        · simp
        · split
          · simp
          · exact ih _

theorem loop_nondigit (M : Nat) (ds : List Nat) (n : Nat)
    (hd : ds.all isDigit = false) : (ParseUint.loop M ds n).2 ≠ none := by
  induction ds generalizing n with
  | nil => simp at hd
  | cons c cs ih =>
    simp only [List.all_cons, Bool.and_eq_false_iff] at hd
    simp only [ParseUint.loop]
    by_cases hc : 48 ≤ c ∧ c ≤ 57
    · have hcs : cs.all isDigit = false := by
        rcases hd with h | h
        · simp [isDigit, hc.1, hc.2] at h
        · exact h
      simp only [hc, and_self, if_true]
      split
      · simp
      · split
        · simp
        · split
          · simp
          · exact ih _ hcs
    · simp only [hc, if_false]
      by_cases hl : 97 ≤ lower c ∧ lower c ≤ 122
      · simp [hl]
      · simp [hl]

theorem ParseUint32_digits (ds : List Nat) (hne : ds ≠ []) (hd : ds.all isDigit = true) :
    ParseUint ds 32 =
      if digitsValue ds ≤ 4294967295 then (digitsValue ds, none)
      else (4294967295, some .ErrRange) := by
  have hd2 : ∀ c ∈ ds, isDigit c = true := by simpa [List.all_eq_true] using hd
  have := loop_digits ds 0 hd2 (by omega)
  simp only [ParseUint, hne, if_false]
  norm_num [maxVal32]
  simpa [digitsValue] using this

theorem ParseUint32_invalid (ds : List Nat) (h : ds = [] ∨ ds.all isDigit = false) :
    ParseUint ds 32 = (0, some .ErrSyntax) ∨ ParseUint ds 32 = (4294967295, some .ErrRange) := by
  by_cases hne : ds = []
  · simp [ParseUint, hne]
  · have hd : ds.all isDigit = false := by
      rcases h with h | h
      · exact absurd h hne
      · exact h
    have h1 := loop_nondigit 4294967295 ds 0 hd
    have h2 := loop_error_shape 4294967295 ds 0
    simp only [ParseUint, hne, if_false]
    norm_num [maxVal32]
    rcases h2 with h2 | h2 | h2
    · exact absurd h2 h1
    · exact Or.inl h2
    · exact Or.inr h2

theorem toInt64_small (x : Int) (h1 : -2 ^ 63 ≤ x) (h2 : x < 2 ^ 63) : toInt64 x = x := by
  unfold toInt64
  have : (x + 2 ^ 63) % 2 ^ 64 = x + 2 ^ 63 := Int.emod_eq_of_lt (by omega) (by omega)
  omega

theorem ParseInt32_of_unsigned (c : Nat) (rest : List Nat) (r : Nat × Option NumError)
    (hr : ParseUint (if c = 43 then rest else if c = 45 then rest else c :: rest) 32 = r) :
    ParseInt (c :: rest) 32 =
      if r.2 ≠ none ∧ r.2 ≠ some .ErrRange then (0, r.2)
      else if c ≠ 45 ∧ r.1 ≥ 2147483648 then (2147483647, some .ErrRange)
      else if c = 45 ∧ r.1 > 2147483648 then (-2147483648, some .ErrRange)
      else (if c = 45 then toInt64 (-(toInt64 r.1)) else toInt64 r.1, none) := by
  obtain ⟨un, err⟩ := r
  simp only [ParseInt, hr, toUint64]
  norm_num

theorem ParseInt32_valid (s : GoString) (v : Int) (h : decimalValue s = some v)
    (hv : InInt32 v) : ParseInt s 32 = (v, none) := by
  cases s with
  | nil => simp [decimalValue] at h
  | cons c rest =>
    have hs1 : (if c = 43 then rest else if c = 45 then rest else c :: rest)
        = (if c = 43 ∨ c = 45 then rest else c :: rest) := by
      by_cases h1 : c = 43 <;> by_cases h2 : c = 45 <;> simp [h1, h2]
    simp only [decimalValue] at h
    by_cases hds : (if c = 43 ∨ c = 45 then rest else c :: rest) ≠ [] ∧
        (if c = 43 ∨ c = 45 then rest else c :: rest).all isDigit = true
    · obtain ⟨hne, hall⟩ := hds
      rw [if_pos ⟨hne, hall⟩] at h
      have hU := ParseUint32_digits _ hne hall
      rw [← hs1] at hU
      rw [ParseInt32_of_unsigned c rest _ hU]
      simp only [Option.some.injEq] at h
      unfold InInt32 at hv
      rw [hs1]
      generalize digitsValue (if c = 43 ∨ c = 45 then rest else c :: rest) = T at h hv ⊢
      by_cases hc : c = 45
      · simp only [hc, if_true] at h
        subst h
        have hT : T ≤ 4294967295 := by omega
        have e1 : toInt64 (T : Int) = T := toInt64_small _ (by omega) (by omega)
        have e2 : toInt64 (-(T : Int)) = -T := toInt64_small _ (by omega) (by omega)
        have h3 : ¬ (T > 2147483648) := by omega
        simp [hT, hc, e1, e2, h3]
      · simp only [hc, if_false] at h
        subst h
        have hT : T ≤ 4294967295 := by omega
        have e1 : toInt64 (T : Int) = T := toInt64_small _ (by omega) (by omega)
        have h3 : ¬ (T ≥ 2147483648) := by omega
        simp [hT, hc, e1, h3]
    · rw [if_neg hds] at h
      simp at h

theorem ParseInt32_invalid (s : GoString)
    (h : ∀ v, decimalValue s = some v → ¬ InInt32 v) : (ParseInt s 32).2 ≠ none := by
  cases s with
  | nil => simp [ParseInt]
  | cons c rest =>
    have hs1 : (if c = 43 then rest else if c = 45 then rest else c :: rest)
        = (if c = 43 ∨ c = 45 then rest else c :: rest) := by
      by_cases h1 : c = 43 <;> by_cases h2 : c = 45 <;> simp [h1, h2]
    simp only [decimalValue] at h
    by_cases hds : (if c = 43 ∨ c = 45 then rest else c :: rest) ≠ [] ∧
        (if c = 43 ∨ c = 45 then rest else c :: rest).all isDigit = true
    · obtain ⟨hne, hall⟩ := hds
      have hU := ParseUint32_digits _ hne hall
      rw [← hs1] at hU
      rw [ParseInt32_of_unsigned c rest _ hU]
      have hv := h _ (by rw [if_pos ⟨hne, hall⟩])
      unfold InInt32 at hv
      rw [hs1]
      generalize digitsValue (if c = 43 ∨ c = 45 then rest else c :: rest) = T at hv ⊢
      by_cases hT : T ≤ 4294967295
      · by_cases hc : c = 45
        · simp only [hc, if_true] at hv
          have : T > 2147483648 := by omega
          simp [hT, hc, this]
        · simp only [hc, if_false] at hv
          have : T ≥ 2147483648 := by omega
          simp [hT, hc, this]
      · by_cases hc : c = 45
        · simp [hT, hc]
        · simp [hT, hc]
    · have hinv : (if c = 43 ∨ c = 45 then rest else c :: rest) = [] ∨
          (if c = 43 ∨ c = 45 then rest else c :: rest).all isDigit = false := by
        by_cases hne : (if c = 43 ∨ c = 45 then rest else c :: rest) = []
        · exact Or.inl hne
        · right
          cases hb : (if c = 43 ∨ c = 45 then rest else c :: rest).all isDigit
          · rfl
          · exact absurd ⟨hne, hb⟩ hds
      have hU := ParseUint32_invalid _ hinv
      rw [← hs1] at hU
      rcases hU with hU | hU
      · rw [ParseInt32_of_unsigned c rest _ hU]
        simp
      · rw [ParseInt32_of_unsigned c rest _ hU]
        by_cases hc : c = 45
        · simp [hc]
        · simp [hc]

/-! ## Claims C1 and C2: `Level.Set` -/

theorem toInt32_of_inInt32 (x : Int) (h : InInt32 x) : toInt32 x = x := by
  unfold InInt32 at h
  unfold toInt32
  have : (x + 2 ^ 31) % 2 ^ 32 = x + 2 ^ 31 := Int.emod_eq_of_lt (by omega) (by omega)
  omega

/-- C1: for every string `s` that is a base-10 numeral whose value `v` fits in
32 signed bits, every prior state and every receiver, `Level.Set` returns the
nil error and afterwards `get` on the global verbosity yields `v`. -/
theorem Level_Set_valid (l : Level) (s : GoString) (v : Int) (g : G)
    (hs : decimalValue s = some v) (hv : InInt32 v) :
    (Level.Set l s g).2 = none ∧ Level.get (Level.Set l s g).1.verbosity = v := by
  simp only [Level.Set, ParseInt32_valid s v hs hv, Level.get, Level.set]
  simp [toInt32_of_inInt32 v hv]

theorem Level_Set_valid_witness :
    decimalValue [45, 52, 50] = some (-42) ∧ InInt32 (-42) ∧
    ((Level.Set 7 [45, 52, 50] exStart).2 = none ∧
      Level.get (Level.Set 7 [45, 52, 50] exStart).1.verbosity = -42) :=
  ⟨by decide, by decide, Level_Set_valid 7 [45, 52, 50] (-42) exStart (by decide) (by decide)⟩

/-- C2: for every string `s` that is not a base-10 numeral, or whose value does
not fit in 32 signed bits (the empty string included), `Level.Set` returns a
non-nil error and the package state, the global verbosity in particular, is
what it was before the call. -/
theorem Level_Set_invalid (l : Level) (s : GoString) (g : G)
    (hs : ∀ v, decimalValue s = some v → ¬ InInt32 v) :
    (Level.Set l s g).2 ≠ none ∧ (Level.Set l s g).1 = g ∧
      (Level.Set l s g).1.verbosity = g.verbosity := by
  have h := ParseInt32_invalid s hs
  simp [Level.Set, h]

theorem Level_Set_invalid_witness :
    (∀ v, decimalValue [] = some v → ¬ InInt32 v) ∧
    ((Level.Set 7 [] exStart).2 ≠ none ∧ (Level.Set 7 [] exStart).1 = exStart ∧
      (Level.Set 7 [] exStart).1.verbosity = exStart.verbosity) :=
  ⟨fun v h => by simp [decimalValue] at h,
   Level_Set_invalid 7 [] exStart (fun v h => by simp [decimalValue] at h)⟩

/-- Strings `Level.Set` rejects: `"2147483648"` is out of range, `"12a"` and
`"+"` are not numerals; `"-2147483648"` is accepted. -/
theorem Level_Set_examples :
    Level.Set 0 [50, 49, 52, 55, 52, 56, 51, 54, 52, 56] exStart =
      (exStart, some .ErrRange) ∧
    Level.Set 0 [49, 50, 97] exStart = (exStart, some .ErrSyntax) ∧
    Level.Set 0 [43] exStart = (exStart, some .ErrSyntax) ∧
    Level.Set 0 [45, 50, 49, 52, 55, 52, 56, 51, 54, 52, 56] exStart =
      ({ exStart with verbosity := -2147483648 }, none) := by
  decide

/-! ## Claim C3: the `Verbose` gate is a snapshot -/

/-- C3 (as stated) fails when no backend logger is installed: after
`SetLogger(nil)`, `V(0)` taken at verbosity `0` is enabled, and `Info` on it
panics in `SDepth` without handing anything to the backend. -/
theorem V_Info_snapshot_counterexample :
    exStart.verbosity.get ≥ 0 ∧ (V 0 exStart).enabled = true ∧ exNoLogger.logger = none ∧
    (Verbose.Info (V 0 exStart) [Value.str "x"] exNoLogger).out = [] ∧
    (Verbose.Info (V 0 exStart) [Value.str "x"] exNoLogger).halted = some .nilDeref := by
  decide

/-- C3 (amended): for every level `n` and every state `g` in which `V(n)` is
called, a later `Info` on the returned value, in any state `g2` that has a
backend logger installed (whatever its verbosity), hands the backend exactly
one info-level record when the verbosity of `g` was at least `n`, and nothing
when it was below `n`. -/
theorem V_Info_snapshot (n : Level) (g g2 : G) (lg : Logger) (args : List Value)
    (hl : g2.logger = some lg) :
    (Verbose.Info (V n g) args g2).out =
      g2.out ++ (if g.verbosity.get ≥ n
        then [⟨lg.WithOptions_AddCallerSkip 1, .Info, .plain args⟩] else []) := by
  by_cases h : g.verbosity.get ≥ n
  · simp [Verbose.Info, V, h, SDepth, LDepth, hl, G.via, SugaredLogger.Info, G.emit,
      Logger.Sugar]
  · simp [Verbose.Info, V, h]

theorem V_Info_snapshot_witness :
    exStart.logger = some exLogger ∧
    (Verbose.Info (V 3 exMax) [Value.str "x"] exStart).out =
      exStart.out ++ (if exMax.verbosity.get ≥ 3
        then [⟨exLogger.WithOptions_AddCallerSkip 1, .Info, .plain [Value.str "x"]⟩] else []) :=
  ⟨by decide, V_Info_snapshot 3 exMax exStart exLogger [Value.str "x"] (by decide)⟩

/-! ## Claims C4, C5, C10: the signal listener -/

theorem toInt32_inInt32 (x : Int) : InInt32 (toInt32 x) := by
  unfold InInt32 toInt32
  omega

theorem inInt32_succ (x : Int) (h : InInt32 x) (hlt : x < 2147483647) : InInt32 (x + 1) := by
  unfold InInt32 at h ⊢
  omega

theorem toInt32_add_left (a b : Int) : toInt32 (toInt32 a + b) = toInt32 (a + b) := by
  unfold toInt32
  omega

theorem toInt32_succ_ne_pred (x : Int) : toInt32 (x + 1) ≠ toInt32 (x - 1) := by
  unfold toInt32
  omega

theorem toInt32_succ_ne_self (x : Int) : toInt32 (x + 1) ≠ x := by
  unfold toInt32
  omega

theorem toInt32_pred_ne_self (x : Int) : toInt32 (x - 1) ≠ x := by
  unfold toInt32
  omega

theorem listener_step_verbosity (sig : Signal) (g : G) :
    (listener.step sig g).verbosity =
      if sig = g.sigs.1 then toInt32 (g.verbosity + 1)
      else if sig = g.sigs.2 then toInt32 (g.verbosity - 1)
      else g.verbosity := by
  unfold listener.step
  split_ifs with h1 h2
  · simp only [Level.get, Level.set, L, G.via]
    cases g.logger <;>
      simp [G.nilPanic, Logger.Debug, G.emit, toInt32_of_inInt32 _ (toInt32_inInt32 _)]
  · simp only [Level.get, Level.set, L, G.via]
    cases g.logger <;>
      simp [G.nilPanic, Logger.Debug, G.emit, toInt32_of_inInt32 _ (toInt32_inInt32 _)]
  · rfl

theorem listener_step_preserves (sig : Signal) (g : G) (lg : Logger)
    (hl : g.logger = some lg) (hh : g.halted = none) :
    (listener.step sig g).logger = some lg ∧ (listener.step sig g).halted = none ∧
      (listener.step sig g).sigs = g.sigs := by
  unfold listener.step
  split_ifs with h1 h2
  · simp [L, G.via, hl, hh, Logger.Debug, G.emit]
  · simp [L, G.via, hl, hh, Logger.Debug, G.emit]
  · simp [hl, hh]

theorem listener_verbosity_aux (inc dec : Signal) (hne : inc ≠ dec) (lg : Logger)
    (sigs : List Signal) (g : G) (hl : g.logger = some lg) (hh : g.halted = none)
    (hs : g.sigs = (inc, dec)) (hv : InInt32 g.verbosity) :
    (listener sigs g).verbosity =
      toInt32 (g.verbosity + ((sigs.count inc : Int) - (sigs.count dec : Int))) := by
  induction sigs generalizing g with
  | nil => simp [listener, toInt32_of_inInt32 _ hv]
  | cons sig rest ih =>
    obtain ⟨pl, ph, ps⟩ := listener_step_preserves sig g lg hl hh
    have pv := listener_step_verbosity sig g
    have hvi : InInt32 (listener.step sig g).verbosity := by
      rw [pv]
      split
      · exact toInt32_inInt32 _
      · split
        · exact toInt32_inInt32 _
        · exact hv
    simp only [listener, hh, Option.isSome_none, Bool.false_eq_true, if_false]
    rw [ih _ pl ph (ps.trans hs) hvi, pv, hs]
    simp only [List.count_cons]
    by_cases h1 : sig = inc
    · subst h1
      have h2 : ¬ (sig = dec) := hne
      simp only [if_true, beq_self_eq_true, beq_iff_eq, h2, if_false]
      rw [toInt32_add_left]
      congr 1
      push_cast
      ring
    · by_cases h2 : sig = dec
      · subst h2
        simp only [h1, if_false, if_true, beq_self_eq_true, beq_iff_eq]
        rw [toInt32_add_left]
        congr 1
        push_cast
        ring
      · simp only [h1, h2, if_false, beq_iff_eq]
        simp

/-- C4 (as stated) fails in two ways.  At verbosity `2^31 - 1` one delivery of
the increase signal leaves `-2^31`, not `2^31`: `Level` is `int32` and the
addition wraps.  With one signal bound to both roles a single delivery counts
once as increase and once as decrease, the claimed change is `0`, and the code
raises the level by one. -/
theorem listener_net_change_counterexample :
    (exMax.sigs = (sigA, sigB) ∧ exMax.logger = some exLogger ∧ exMax.halted = none ∧
      (listener [sigA] exMax).verbosity = -2147483648 ∧
      exMax.verbosity + ((List.count sigA [sigA] : Int) - (List.count sigB [sigA] : Int))
        = 2147483648) ∧
    ((EnableVerbosityHook sigA sigA exStart).sigs = (sigA, sigA) ∧
      (listener [sigA] (EnableVerbosityHook sigA sigA exStart)).verbosity = 1 ∧
      (EnableVerbosityHook sigA sigA exStart).verbosity +
        ((List.count sigA [sigA] : Int) - (List.count sigA [sigA] : Int)) = 0) := by
  decide

/-- C4 (amended): with a fixed binding `(inc, dec)` of two different signals, a
backend logger installed and the process running, after the listener has
processed a sequence containing `inc` k times and `dec` j times the global
verbosity is `L + (k - j)` reduced to `int32`; it is exactly `L + (k - j)`
whenever that number fits in `int32`, and from `L = 0` the sequence
`inc, inc, dec` yields `1`. -/
theorem listener_net_change (inc dec : Signal) (hne : inc ≠ dec) (g : G) (lg : Logger)
    (hl : g.logger = some lg) (hh : g.halted = none) (hs : g.sigs = (inc, dec))
    (hv : InInt32 g.verbosity) (sigs : List Signal) :
    (listener sigs g).verbosity =
      toInt32 (g.verbosity + ((sigs.count inc : Int) - (sigs.count dec : Int))) ∧
    (InInt32 (g.verbosity + ((sigs.count inc : Int) - (sigs.count dec : Int))) →
      (listener sigs g).verbosity =
        g.verbosity + ((sigs.count inc : Int) - (sigs.count dec : Int))) ∧
    (g.verbosity = 0 → (listener [inc, inc, dec] g).verbosity = 1) := by
  refine ⟨listener_verbosity_aux inc dec hne lg sigs g hl hh hs hv, ?_, ?_⟩
  · intro hr
    rw [listener_verbosity_aux inc dec hne lg sigs g hl hh hs hv, toInt32_of_inInt32 _ hr]
  · intro h0
    rw [listener_verbosity_aux inc dec hne lg _ g hl hh hs hv, h0]
    have h1 : ¬ (dec = inc) := fun h => hne h.symm
    simp [List.count_cons, hne, h1]
    decide

theorem listener_net_change_witness :
    sigA ≠ sigB ∧ exStart.logger = some exLogger ∧ exStart.halted = none ∧
    exStart.sigs = (sigA, sigB) ∧ InInt32 exStart.verbosity ∧
    ((listener [sigA, sigB, sigA, sigC] exStart).verbosity =
      toInt32 (exStart.verbosity + (([sigA, sigB, sigA, sigC].count sigA : Int) -
        ([sigA, sigB, sigA, sigC].count sigB : Int))) ∧
    (InInt32 (exStart.verbosity + (([sigA, sigB, sigA, sigC].count sigA : Int) -
        ([sigA, sigB, sigA, sigC].count sigB : Int))) →
      (listener [sigA, sigB, sigA, sigC] exStart).verbosity =
        exStart.verbosity + (([sigA, sigB, sigA, sigC].count sigA : Int) -
          ([sigA, sigB, sigA, sigC].count sigB : Int))) ∧
    (exStart.verbosity = 0 → (listener [sigA, sigA, sigB] exStart).verbosity = 1)) :=
  ⟨by decide, by decide, by decide, by decide, by decide,
   listener_net_change sigA sigB (by decide) exStart exLogger (by decide) (by decide)
     (by decide) (by decide) [sigA, sigB, sigA, sigC]⟩

theorem EnableVerbosityHook_fields (inc dec : Signal) (g : G) :
    (EnableVerbosityHook inc dec g).sigs = (inc, dec) ∧
    (EnableVerbosityHook inc dec g).verbosity = g.verbosity ∧
    (EnableVerbosityHook inc dec g).logger = g.logger ∧
    (EnableVerbosityHook inc dec g).halted = g.halted ∧
    (EnableVerbosityHook inc dec g).out = g.out := by
  simp [EnableVerbosityHook, signal.Stop, signal.Notify]

theorem listener_step_unmatched (sig : Signal) (g : G) (h1 : sig ≠ g.sigs.1)
    (h2 : sig ≠ g.sigs.2) : listener.step sig g = g := by
  simp [listener.step, h1, h2]

theorem listener_unmatched (sigs : List Signal) (g : G)
    (h : ∀ x ∈ sigs, x ≠ g.sigs.1 ∧ x ≠ g.sigs.2) : listener sigs g = g := by
  induction sigs with
  | nil => rfl
  | cons sig rest ih =>
    have hsig := h sig (List.mem_cons_self _ _)
    have hrest : ∀ x ∈ rest, x ≠ g.sigs.1 ∧ x ≠ g.sigs.2 :=
      fun x hx => h x (List.mem_cons_of_mem _ hx)
    simp only [listener, listener_step_unmatched sig g hsig.1 hsig.2, ih hrest]
    split <;> rfl

theorem listener_step_sigs (sig : Signal) (g : G) : (listener.step sig g).sigs = g.sigs := by
  unfold listener.step
  split_ifs with h1 h2
  · simp only [L, G.via]
    cases g.logger <;> rfl
  · simp only [L, G.via]
    cases g.logger <;> rfl
  · rfl

theorem listener_sigs (sigs : List Signal) (g : G) : (listener sigs g).sigs = g.sigs := by
  induction sigs generalizing g with
  | nil => rfl
  | cons sig rest ih =>
    simp only [listener]
    split
    · rfl
    · rw [ih, listener_step_sigs]

theorem listener_step_bound (a b sig : Signal) (g : G) (hs : g.sigs = (a, b)) :
    (listener.step sig g = g ↔ (sig ≠ a ∧ sig ≠ b)) ∧
    ((listener.step sig g).verbosity = g.verbosity ↔ (sig ≠ a ∧ sig ≠ b)) ∧
    ((listener.step sig g).verbosity = toInt32 (g.verbosity + 1) ↔ sig = a) ∧
    ((listener.step sig g).verbosity = toInt32 (g.verbosity - 1) ↔ (sig = b ∧ sig ≠ a)) := by
  have pv := listener_step_verbosity sig g
  rw [hs] at pv
  simp only at pv
  have n1 := toInt32_succ_ne_pred g.verbosity
  have n2 := toInt32_succ_ne_self g.verbosity
  have n3 := toInt32_pred_ne_self g.verbosity
  have hverb : (listener.step sig g).verbosity = g.verbosity ↔ (sig ≠ a ∧ sig ≠ b) := by
    rw [pv]
    by_cases h1 : sig = a
    · simp [h1, n2]
    · by_cases h2 : sig = b
      · subst h2
        simp [h1, n3]
      · simp [h1, h2]
  refine ⟨⟨?_, ?_⟩, hverb, ?_, ?_⟩
  · intro h
    apply hverb.mp
    rw [h]
  · intro hx
    apply listener_step_unmatched
    · rw [hs]; exact hx.1
    · rw [hs]; exact hx.2
  · rw [pv]
    by_cases h1 : sig = a
    · simp [h1]
    · by_cases h2 : sig = b
      · subst h2
        simp [h1, n1.symm]
      · simp [h1, h2, n2.symm]
  · rw [pv]
    by_cases h1 : sig = a
    · simp [h1, n1]
    · by_cases h2 : sig = b
      · subst h2
        simp [h1]
      · simp [h1, h2, n3.symm]

/-- C5: let `EnableVerbosityHook(newInc, newDec)` replace the binding `g.sigs`
(the old pair) and let the listener then process any signals `pre`.  The next
signal `sig` it processes leaves the package state (the global verbosity in
particular) unchanged exactly when `sig` equals neither `newInc` nor `newDec`;
this covers the old increase and decrease signals whenever they are not part
of the new pair, and any sequence of such signals.  The increase is applied
exactly to `newInc` and the decrease only to `newDec`, so no signal is applied
in a direction the current binding does not assign to it. -/
theorem EnableVerbosityHook_replaces (newInc newDec sig : Signal) (pre : List Signal) (g : G) :
    (listener.step sig (listener pre (EnableVerbosityHook newInc newDec g)) =
        listener pre (EnableVerbosityHook newInc newDec g) ↔
      (sig ≠ newInc ∧ sig ≠ newDec)) ∧
    ((listener.step sig (listener pre (EnableVerbosityHook newInc newDec g))).verbosity =
        (listener pre (EnableVerbosityHook newInc newDec g)).verbosity ↔
      (sig ≠ newInc ∧ sig ≠ newDec)) ∧
    ((listener.step sig (listener pre (EnableVerbosityHook newInc newDec g))).verbosity =
        toInt32 ((listener pre (EnableVerbosityHook newInc newDec g)).verbosity + 1) ↔
      sig = newInc) ∧
    ((listener.step sig (listener pre (EnableVerbosityHook newInc newDec g))).verbosity =
        toInt32 ((listener pre (EnableVerbosityHook newInc newDec g)).verbosity - 1) ↔
      (sig = newDec ∧ sig ≠ newInc)) ∧
    (g.sigs.1 ≠ newInc ∧ g.sigs.1 ≠ newDec →
      listener.step g.sigs.1 (listener pre (EnableVerbosityHook newInc newDec g)) =
        listener pre (EnableVerbosityHook newInc newDec g)) ∧
    (g.sigs.2 ≠ newInc ∧ g.sigs.2 ≠ newDec →
      listener.step g.sigs.2 (listener pre (EnableVerbosityHook newInc newDec g)) =
        listener pre (EnableVerbosityHook newInc newDec g)) ∧
    (∀ sigs : List Signal, (∀ x ∈ sigs, x ≠ newInc ∧ x ≠ newDec) →
      listener sigs (EnableVerbosityHook newInc newDec g) =
        EnableVerbosityHook newInc newDec g ∧
      (listener sigs (EnableVerbosityHook newInc newDec g)).verbosity = g.verbosity) := by
  obtain ⟨es, ev, -, -, -⟩ := EnableVerbosityHook_fields newInc newDec g
  have hs : (listener pre (EnableVerbosityHook newInc newDec g)).sigs = (newInc, newDec) := by
    rw [listener_sigs, es]
  obtain ⟨b1, b2, b3, b4⟩ := listener_step_bound newInc newDec sig _ hs
  refine ⟨b1, b2, b3, b4, ?_, ?_, ?_⟩
  · exact (listener_step_bound newInc newDec g.sigs.1 _ hs).1.mpr
  · exact (listener_step_bound newInc newDec g.sigs.2 _ hs).1.mpr
  · intro sigs hsigs
    have hu : listener sigs (EnableVerbosityHook newInc newDec g) =
        EnableVerbosityHook newInc newDec g := by
      apply listener_unmatched
      intro x hx
      rw [es]
      exact hsigs x hx
    exact ⟨hu, by rw [hu, ev]⟩

/-- Scenario of the specification: with `(A, B)` bound and the level at 0,
delivering `A, A, B` gives level 1; `V(2).Info` then emits nothing and
`V(1).Info` one info record; after rebinding to `(C, D)` a further `A` still
in the channel is dropped. -/
theorem scenario_example :
    (listener [sigA, sigA, sigB] exStart).verbosity = 1 ∧
    (Verbose.Info (V 2 (listener [sigA, sigA, sigB] exStart)) [Value.str "x"]
        (listener [sigA, sigA, sigB] exStart)).out =
      (listener [sigA, sigA, sigB] exStart).out ∧
    (Verbose.Info (V 1 (listener [sigA, sigA, sigB] exStart)) [Value.str "x"]
        (listener [sigA, sigA, sigB] exStart)).out =
      (listener [sigA, sigA, sigB] exStart).out ++
        [⟨exLogger.WithOptions_AddCallerSkip 1, .Info, .plain [Value.str "x"]⟩] ∧
    (listener.recv (EnableVerbosityHook sigC sigD (osDeliver sigA exStart))).verbosity = 0 ∧
    (listener.recv (EnableVerbosityHook sigC sigD (osDeliver sigA exStart))).sigch = [] ∧
    osDeliver sigA (EnableVerbosityHook sigC sigD exStart) =
      EnableVerbosityHook sigC sigD exStart := by
  decide

/-- C10 (as stated) fails at verbosity `2^31 - 1`: with one signal bound to
both roles a delivery takes the increase branch, the `int32` addition wraps,
and the global verbosity drops to `-2^31`. -/
theorem same_signal_counterexample :
    (EnableVerbosityHook sigA sigA exMax).verbosity = 2147483647 ∧
    (listener.step sigA (EnableVerbosityHook sigA sigA exMax)).verbosity = -2147483648 := by
  decide

theorem toInt32_idem (x : Int) : toInt32 (toInt32 x) = toInt32 x :=
  toInt32_of_inInt32 _ (toInt32_inInt32 x)

theorem listener_step_out_first (sig : Signal) (g : G) (lg : Logger) (hs : sig = g.sigs.1)
    (hl : g.logger = some lg) :
    (listener.step sig g).out =
      g.out ++ [⟨lg, .Debug,
        .structured "increase verbosity" [zap.Int32 "v" (toInt32 (g.verbosity + 1))]⟩] := by
  simp [listener.step, hs, L, G.via, hl, Logger.Debug, G.emit, Level.get, Level.set,
    toInt32_idem]

/-- C10 (amended): when `EnableVerbosityHook` is called with the same signal
for both roles, every delivery of that signal the listener processes
afterwards, at any verbosity `L`, takes the increase branch and never the
decrease branch: the verbosity becomes `L + 1` in `int32` arithmetic, the
record handed to an installed backend logger is the one of the increase
branch, the level is raised by exactly 1 whenever `L` is an `int32` below
`2^31 - 1`, and at `L = 2^31 - 1` it wraps to `-2^31`. -/
theorem same_signal_increases (sig : Signal) (pre : List Signal) (g : G) :
    (listener.step sig (listener pre (EnableVerbosityHook sig sig g))).verbosity =
      toInt32 ((listener pre (EnableVerbosityHook sig sig g)).verbosity + 1) ∧
    (listener.step sig (listener pre (EnableVerbosityHook sig sig g))).verbosity ≠
      toInt32 ((listener pre (EnableVerbosityHook sig sig g)).verbosity - 1) ∧
    (∀ lg, (listener pre (EnableVerbosityHook sig sig g)).logger = some lg →
      (listener.step sig (listener pre (EnableVerbosityHook sig sig g))).out =
        (listener pre (EnableVerbosityHook sig sig g)).out ++ [⟨lg, .Debug,
          .structured "increase verbosity" [zap.Int32 "v"
            (toInt32 ((listener pre (EnableVerbosityHook sig sig g)).verbosity + 1))]⟩]) ∧
    (InInt32 (listener pre (EnableVerbosityHook sig sig g)).verbosity →
      (listener pre (EnableVerbosityHook sig sig g)).verbosity < 2147483647 →
      (listener.step sig (listener pre (EnableVerbosityHook sig sig g))).verbosity =
        (listener pre (EnableVerbosityHook sig sig g)).verbosity + 1) ∧
    ((listener pre (EnableVerbosityHook sig sig g)).verbosity = 2147483647 →
      (listener.step sig (listener pre (EnableVerbosityHook sig sig g))).verbosity =
        -2147483648) := by
  obtain ⟨es, -, -, -, -⟩ := EnableVerbosityHook_fields sig sig g
  have hs : (listener pre (EnableVerbosityHook sig sig g)).sigs = (sig, sig) := by
    rw [listener_sigs, es]
  have pv := listener_step_verbosity sig (listener pre (EnableVerbosityHook sig sig g))
  rw [hs] at pv
  simp only [if_true] at pv
  refine ⟨pv, by rw [pv]; exact toInt32_succ_ne_pred _, ?_, ?_, ?_⟩
  · intro lg hlg
    exact listener_step_out_first sig _ lg (by rw [hs]) hlg
  · intro hv hlt
    rw [pv, toInt32_of_inInt32 _ (inInt32_succ _ hv hlt)]
  · intro hmax
    rw [pv, hmax]
    decide

/-- With `B` bound to both roles, a delivery of `B` processed after `B, A`
raises the level from 1 to 2 and logs the increase. -/
theorem same_signal_example :
    (listener [sigB, sigA] (EnableVerbosityHook sigB sigB exStart)).verbosity = 1 ∧
    (listener.step sigB (listener [sigB, sigA] (EnableVerbosityHook sigB sigB exStart))).verbosity
      = 2 ∧
    (listener [sigB, sigB, sigB] (EnableVerbosityHook sigB sigB exStart)).out.map
      (fun e => e.payload) =
      [.structured "increase verbosity" [zap.Int32 "v" 1],
       .structured "increase verbosity" [zap.Int32 "v" 2],
       .structured "increase verbosity" [zap.Int32 "v" 3]] := by
  decide

/-- The channel `g.sigch` holds one signal: of two deliveries made before the
listener runs, the second is dropped. -/
theorem channel_full_example :
    (run [Op.osDeliver sigA, Op.osDeliver sigA, Op.listenerRecv, Op.listenerRecv]
      exStart).verbosity = 1 ∧
    (run [Op.osDeliver sigA, Op.listenerRecv, Op.osDeliver sigA, Op.listenerRecv]
      exStart).verbosity = 2 := by
  decide

/-! ## Claims C6 and C7: the logr adapter -/

/-- C6: for every logr adapter, whatever its `enabled` flag, `Error` hands the
backend exactly one error-severity record, on the adapter's logger with
`zap.Error(err)` attached as a field; `Info` hands it exactly one
info-severity record when `enabled` is true and nothing when it is false. -/
theorem logrLogger_Error_Info (l : logrLogger) (err : Option GoError) (msg : String)
    (kvs : List Value) (g : G) :
    (l.Error err msg kvs g).out =
      g.out ++ [⟨{ l.s.base with context := l.s.base.context ++ [Value.field (zap.Error err)] },
        .Error, .keyed msg kvs⟩] ∧
    (l.Info msg kvs g).out =
      g.out ++ (if l.Enabled then [⟨l.s.base, .Info, .keyed msg kvs⟩] else []) ∧
    (l.Error err msg kvs g).out = ({ l with enabled := !l.enabled }.Error err msg kvs g).out := by
  refine ⟨?_, ?_, ?_⟩
  · simp [logrLogger.Error, SugaredLogger.With, SugaredLogger.Errorw, G.emit]
  · cases h : l.enabled <;>
      simp [logrLogger.Info, logrLogger.Enabled, h, SugaredLogger.Infow, G.emit]
  · simp [logrLogger.Error]

/-- C7: the `enabled` flag of a derived adapter does not depend on the flag of
the adapter it was derived from.  For every adapter `l` and level,
`l.V(level).Enabled()` is true exactly when the global verbosity is at least
`level`; `l.WithName(name)` and `l.WithValues(kv...)` are enabled for every
`l`, name and key-value list. -/
theorem logrLogger_derived_enabled (l l2 : logrLogger) (level : Int) (name : String)
    (kvs : List Value) (g : G) :
    ((l.V level g).Enabled = true ↔ g.verbosity.get ≥ level) ∧
    (l.V level g).Enabled = (l2.V level g).Enabled ∧
    (l.WithName name).Enabled = true ∧
    (l.WithValues kvs).Enabled = true := by
  simp [logrLogger.V, logrLogger.Enabled, logrLogger.WithName, logrLogger.WithValues,
    Level.get]

/-! ## Claim C8: caller skip of the facade entry points -/

theorem toInt_of_range (x : Int) (h1 : -9223372036854775808 ≤ x)
    (h2 : x ≤ 9223372036854775807) : toInt x = x :=
  toInt64_small x (by omega) (by omega)

theorem toInt_add_toInt (a b : Int) : toInt (a + toInt b) = toInt (a + b) := by
  unfold toInt toInt64
  omega

/-- C8 (as stated) fails in three states.  For `depth = 2^63 - 1` the expression
`1 + depth` overflows Go's `int`, so `InfoDepth` logs through a view whose
caller skip is `-2^63`, not `2^63` above the installed logger's `0`.  On a
logger that already skips `2^63 - 1` frames, `Info` logs through a view whose
caller skip is `-2^63`, not `1` more.  With no logger installed `InfoDepth`
panics and hands nothing to the backend. -/
theorem depth_skip_counterexample :
    (exStart.logger = some exLogger ∧ exLogger.callerSkip = 0 ∧
      (InfoDepth maxInt [] exStart).out =
        [⟨{ exLogger with callerSkip := -9223372036854775808 }, .Info, .plain []⟩] ∧
      exLogger.callerSkip + (1 + maxInt) = 9223372036854775808) ∧
    (exSkipMax.logger = some { exLogger with callerSkip := maxInt } ∧
      (Info [] exSkipMax).out =
        [⟨{ exLogger with callerSkip := -9223372036854775808 }, .Info, .plain []⟩] ∧
      maxInt + 1 = 9223372036854775808) ∧
    (exNoLogger.logger = none ∧ (InfoDepth 0 [] exNoLogger).out = [] ∧
      (InfoDepth 0 [] exNoLogger).halted = some .nilDeref) := by
  decide

/-- C8 (amended): with a backend logger `lg` installed, for every depth `d` and
argument list, each `*Depth` entry point emits at its own severity through
the view of `lg` whose caller skip is `lg.callerSkip + (1 + d)` computed in
Go's 64-bit `int` (two's complement wrap), and each plain and formatted entry
point through the view whose caller skip is `lg.callerSkip + 1` computed
likewise; the skip is exactly `1 + d`, respectively `1`, above that of `lg`
whenever the sum fits in `int`; and `X(args)` behaves exactly as
`XDepth(0, args)`. -/
theorem depth_skip (d : Int) (args : List Value) (format : String) (g : G) (lg : Logger)
    (hl : g.logger = some lg) :
    (InfoDepth d args g =
       g.emit ⟨{ lg with callerSkip := toInt (lg.callerSkip + (1 + d)) }, .Info, .plain args⟩ ∧
     WarningDepth d args g =
       g.emit ⟨{ lg with callerSkip := toInt (lg.callerSkip + (1 + d)) }, .Warn, .plain args⟩ ∧
     ErrorDepth d args g =
       g.emit ⟨{ lg with callerSkip := toInt (lg.callerSkip + (1 + d)) }, .Error, .plain args⟩ ∧
     FatalDepth d args g =
       (g.emit ⟨{ lg with callerSkip := toInt (lg.callerSkip + (1 + d)) }, .Fatal,
         .plain args⟩).exit 1 ∧
     ExitDepth d args g =
       (g.emit ⟨{ lg with callerSkip := toInt (lg.callerSkip + (1 + d)) }, .Fatal,
         .plain args⟩).exit 1) ∧
    (Info args g =
       g.emit ⟨{ lg with callerSkip := toInt (lg.callerSkip + 1) }, .Info, .plain args⟩ ∧
     Infoln args g =
       g.emit ⟨{ lg with callerSkip := toInt (lg.callerSkip + 1) }, .Info, .plain args⟩ ∧
     Infof format args g =
       g.emit ⟨{ lg with callerSkip := toInt (lg.callerSkip + 1) }, .Info,
         .formatted format args⟩ ∧
     Warning args g =
       g.emit ⟨{ lg with callerSkip := toInt (lg.callerSkip + 1) }, .Warn, .plain args⟩ ∧
     Warningln args g =
       g.emit ⟨{ lg with callerSkip := toInt (lg.callerSkip + 1) }, .Warn, .plain args⟩ ∧
     Warningf format args g =
       g.emit ⟨{ lg with callerSkip := toInt (lg.callerSkip + 1) }, .Warn,
         .formatted format args⟩ ∧
     Error args g =
       g.emit ⟨{ lg with callerSkip := toInt (lg.callerSkip + 1) }, .Error, .plain args⟩ ∧
     Errorln args g =
       g.emit ⟨{ lg with callerSkip := toInt (lg.callerSkip + 1) }, .Error, .plain args⟩ ∧
     Errorf format args g =
       g.emit ⟨{ lg with callerSkip := toInt (lg.callerSkip + 1) }, .Error,
         .formatted format args⟩ ∧
     Fatal args g =
       (g.emit ⟨{ lg with callerSkip := toInt (lg.callerSkip + 1) }, .Fatal,
         .plain args⟩).exit 1 ∧
     Fatalln args g =
       (g.emit ⟨{ lg with callerSkip := toInt (lg.callerSkip + 1) }, .Fatal,
         .plain args⟩).exit 1 ∧
     Fatalf format args g =
       (g.emit ⟨{ lg with callerSkip := toInt (lg.callerSkip + 1) }, .Fatal,
         .formatted format args⟩).exit 1 ∧
     Exit args g =
       (g.emit ⟨{ lg with callerSkip := toInt (lg.callerSkip + 1) }, .Fatal,
         .plain args⟩).exit 1 ∧
     Exitln args g =
       (g.emit ⟨{ lg with callerSkip := toInt (lg.callerSkip + 1) }, .Fatal,
         .plain args⟩).exit 1 ∧
     Exitf format args g =
       (g.emit ⟨{ lg with callerSkip := toInt (lg.callerSkip + 1) }, .Fatal,
         .formatted format args⟩).exit 1) ∧
    (Info args g = InfoDepth 0 args g ∧ Infoln args g = InfoDepth 0 args g ∧
     Warning args g = WarningDepth 0 args g ∧ Warningln args g = WarningDepth 0 args g ∧
     Error args g = ErrorDepth 0 args g ∧ Errorln args g = ErrorDepth 0 args g ∧
     Fatal args g = FatalDepth 0 args g ∧ Fatalln args g = FatalDepth 0 args g ∧
     Exit args g = ExitDepth 0 args g ∧ Exitln args g = ExitDepth 0 args g) ∧
    (-9223372036854775808 ≤ lg.callerSkip + (1 + d) →
      lg.callerSkip + (1 + d) ≤ 9223372036854775807 →
      toInt (lg.callerSkip + (1 + d)) = lg.callerSkip + (1 + d) ∧
      InfoDepth d args g =
        g.emit ⟨{ lg with callerSkip := lg.callerSkip + (1 + d) }, .Info, .plain args⟩ ∧
      WarningDepth d args g =
        g.emit ⟨{ lg with callerSkip := lg.callerSkip + (1 + d) }, .Warn, .plain args⟩ ∧
      ErrorDepth d args g =
        g.emit ⟨{ lg with callerSkip := lg.callerSkip + (1 + d) }, .Error, .plain args⟩ ∧
      FatalDepth d args g =
        (g.emit ⟨{ lg with callerSkip := lg.callerSkip + (1 + d) }, .Fatal,
          .plain args⟩).exit 1 ∧
      ExitDepth d args g =
        (g.emit ⟨{ lg with callerSkip := lg.callerSkip + (1 + d) }, .Fatal,
          .plain args⟩).exit 1) ∧
    (-9223372036854775808 ≤ lg.callerSkip + 1 → lg.callerSkip + 1 ≤ 9223372036854775807 →
      toInt (lg.callerSkip + 1) = lg.callerSkip + 1 ∧
      Info args g =
        g.emit ⟨{ lg with callerSkip := lg.callerSkip + 1 }, .Info, .plain args⟩) := by
  have e0 : toInt 1 = 1 := by decide
  refine ⟨?_, ?_, ?_, ?_, ?_⟩
  rotate_left 3
  · intro h1 h2
    have e := toInt_of_range _ h1 h2
    refine ⟨e, ?_⟩
    simp [InfoDepth, WarningDepth, ErrorDepth, FatalDepth, ExitDepth, SDepth, LDepth, hl,
      G.via, Logger.Sugar, SugaredLogger.Info, SugaredLogger.Warn, SugaredLogger.Error,
      SugaredLogger.Fatal, Logger.WithOptions_AddCallerSkip, toInt_add_toInt, e]
  · intro h1 h2
    have e := toInt_of_range _ h1 h2
    refine ⟨e, ?_⟩
    simp [Info, SDepth, LDepth, hl, G.via, Logger.Sugar, SugaredLogger.Info,
      Logger.WithOptions_AddCallerSkip, e]
  · simp [InfoDepth, WarningDepth, ErrorDepth, FatalDepth, ExitDepth, SDepth, LDepth, hl,
      G.via, Logger.Sugar, SugaredLogger.Info, SugaredLogger.Warn, SugaredLogger.Error,
      SugaredLogger.Fatal, Logger.WithOptions_AddCallerSkip, toInt_add_toInt]
  · simp [Info, Infoln, Infof, Warning, Warningln, Warningf, Error, Errorln, Errorf, Fatal,
      Fatalln, Fatalf, Exit, Exitln, Exitf, SDepth, LDepth, hl, G.via, Logger.Sugar,
      SugaredLogger.Info, SugaredLogger.Infof, SugaredLogger.Warn, SugaredLogger.Warnf,
      SugaredLogger.Error, SugaredLogger.Errorf, SugaredLogger.Fatal, SugaredLogger.Fatalf,
      Logger.WithOptions_AddCallerSkip]
  · simp [Info, Infoln, Warning, Warningln, Error, Errorln, Fatal, Fatalln, Exit, Exitln,
      InfoDepth, WarningDepth, ErrorDepth, FatalDepth, ExitDepth, e0]

theorem depth_skip_witness :
    exStart.logger = some exLogger ∧
    InfoDepth 2 [Value.str "x"] exStart =
      exStart.emit ⟨{ exLogger with callerSkip := 3 }, .Info, .plain [Value.str "x"]⟩ :=
  ⟨by decide,
   (depth_skip 2 [Value.str "x"] "f" exStart exLogger (by decide)).1.1⟩

/-! ## Claim C9: the backend logger reference -/

theorem via_logger {α : Type} (g : G) (view : Option α) (call : α → G → G)
    (h : ∀ a, (call a g).logger = g.logger) : (g.via view call).logger = g.logger := by
  cases view with
  | none => rfl
  | some a => exact h a

theorem listener_step_logger (sig : Signal) (g : G) :
    (listener.step sig g).logger = g.logger := by
  unfold listener.step
  split_ifs with h1 h2
  · simp only [L, G.via]
    cases g.logger <;> rfl
  · simp only [L, G.via]
    cases g.logger <;> rfl
  · rfl

theorem Level_Set_logger (l : Level) (value : GoString) (g : G) :
    (Level.Set l value g).1.logger = g.logger := by
  unfold Level.Set
  split
  split <;> rfl

theorem Op_apply_logger (op : Op) (g : G) (h : ∀ x, op ≠ Op.SetLogger x) :
    (op.apply g).logger = g.logger := by
  cases op with
  | SetLogger x => exact absurd rfl (h x)
  | LevelSet value => exact Level_Set_logger 0 value g
  | listenerRecv =>
    simp only [Op.apply, listener.recv]
    split
    · rfl
    · rw [listener_step_logger]
  | osDeliver sig =>
    simp only [Op.apply, osDeliver]
    split <;> rfl
  | SetVerbosity level => rfl
  | EnableVerbosityHook inc dec => rfl
  | DisableVerbosityHook => rfl
  | logrInfo l msg kvs =>
    simp only [Op.apply, logrLogger.Info]
    split <;> rfl
  | logrError l err msg kvs => rfl
  | VInfo lv args =>
    simp only [Op.apply, Verbose.Info]
    split
    · exact via_logger _ _ _ (fun _ => rfl)
    · rfl
  | VInfoln lv args =>
    simp only [Op.apply, Verbose.Infoln]
    split
    · exact via_logger _ _ _ (fun _ => rfl)
    · rfl
  | VInfof lv format args =>
    simp only [Op.apply, Verbose.Infof]
    split
    · exact via_logger _ _ _ (fun _ => rfl)
    · rfl
  | VInfoz lv message fields =>
    simp only [Op.apply, Verbose.Infoz]
    split
    · exact via_logger _ _ _ (fun _ => rfl)
    · rfl
  | _ => exact via_logger _ _ _ (fun _ => rfl)

theorem run_logger (ops : List Op) (g : G) (hg : g.logger ≠ none)
    (h : ∀ op ∈ ops, op ≠ Op.SetLogger none) : (run ops g).logger ≠ none := by
  induction ops generalizing g with
  | nil => exact hg
  | cons op rest ih =>
    simp only [run]
    split
    · exact hg
    · apply ih
      · by_cases hop : ∃ x, op = Op.SetLogger x
        · obtain ⟨x, rfl⟩ := hop
          cases x with
          | none => exact absurd rfl (h _ (List.mem_cons_self _ _))
          | some lg => simp [Op.apply, SetLogger]
        · rw [Op_apply_logger op g (fun x hx => hop ⟨x, hx⟩)]
          exact hg
      · exact fun o ho => h o (List.mem_cons_of_mem _ ho)

/-- C9 (as stated) fails: `SetLogger` stores its argument unchecked, so after
`SetLogger(nil)` the function `L` returns nil. -/
theorem L_nonnil_counterexample :
    L (run [Op.SetLogger none] (init (.ok exLogger) exLogger G.zero)) = none := by
  decide

theorem run_logger_keep (ops : List Op) (g : G)
    (h : ∀ op ∈ ops, ∀ y, op ≠ Op.SetLogger y) : (run ops g).logger = g.logger := by
  induction ops generalizing g with
  | nil => rfl
  | cons op rest ih =>
    simp only [run]
    split
    · rfl
    · rw [ih _ (fun o ho => h o (List.mem_cons_of_mem _ ho)),
        Op_apply_logger op g (h op (List.mem_cons_self _ _))]

/-- C9 (amended): initialization installs a non-nil backend logger whether or
not the preferred backend could be built, and after initialization `L`
returns a non-nil logger after every sequence of operations in which no
`SetLogger` call is given nil.  `L` always returns what the latest `SetLogger`
stored: right after the call, and after any further operations `later` that
are not `SetLogger` calls, nil included. -/
theorem L_nonnil (built : Except GoError Logger) (zapL : Logger) (ops later : List Op)
    (h : ∀ op ∈ ops, op ≠ Op.SetLogger none) :
    L (init built zapL G.zero) ≠ none ∧
    L (init built zapL G.zero) = some (match built with | .ok lg => lg | .error _ => zapL) ∧
    L (run ops (init built zapL G.zero)) ≠ none ∧
    (∀ (x : Option Logger) (g : G), L (SetLogger x g) = x) ∧
    ((∀ op ∈ later, ∀ y, op ≠ Op.SetLogger y) →
      ∀ (x : Option Logger) (g : G),
        L (run later (SetLogger x g)) = x ∧
        L (run (Op.SetLogger x :: later) g) = (if g.halted.isSome then L g else x)) ∧
    ((∀ op ∈ later, ∀ y, op ≠ Op.SetLogger y) →
      L (run later (init built zapL G.zero)) = L (init built zapL G.zero)) := by
  have h0 : (init built zapL G.zero).logger =
      some (match built with | .ok lg => lg | .error _ => zapL) := by
    simp [init, EnableVerbosityHook, signal.Stop, signal.Notify, SetLogger]
  refine ⟨?_, h0, ?_, fun _ _ => rfl, ?_, ?_⟩
  · simp [L, h0]
  · exact run_logger ops _ (by simp [h0]) h
  · intro hl x g
    refine ⟨?_, ?_⟩
    · simp only [L]
      rw [run_logger_keep later _ hl]
      rfl
    · simp only [L, run]
      split
      · simp [*]
      · rw [run_logger_keep later _ hl]
        rfl
  · intro hl
    simp only [L]
    rw [run_logger_keep later _ hl]

theorem L_nonnil_witness :
    (∀ op ∈ [Op.SetLogger (some exLogger), Op.Info [Value.str "x"], Op.SetVerbosity 3,
        Op.osDeliver sigA, Op.listenerRecv, Op.DisableVerbosityHook],
      op ≠ Op.SetLogger none) ∧
    L (run [Op.SetLogger (some exLogger), Op.Info [Value.str "x"], Op.SetVerbosity 3,
        Op.osDeliver sigA, Op.listenerRecv, Op.DisableVerbosityHook]
      (init (.error ⟨"no backend"⟩) exLogger G.zero)) ≠ none :=
  ⟨by decide,
   (L_nonnil (.error ⟨"no backend"⟩) exLogger [Op.SetLogger (some exLogger),
      Op.Info [Value.str "x"], Op.SetVerbosity 3, Op.osDeliver sigA, Op.listenerRecv,
      Op.DisableVerbosityHook] [] (by decide)).2.2.1⟩

/-- After `SetLogger` of a logger named `b`, logging, a verbosity change and a
processed signal leave `L` returning that logger; after `SetLogger(nil)` and
a verbosity change `L` returns nil. -/
theorem L_latest_example :
    L (run [Op.SetLogger (some { exLogger with name := "b" }), Op.Info [Value.str "x"],
        Op.SetVerbosity 3, Op.osDeliver sigA, Op.listenerRecv] exStart) =
      some { exLogger with name := "b" } ∧
    L (run [Op.SetLogger none, Op.SetVerbosity 3] exStart) = none := by
  decide

end Zapglog
